import Mathlib

/-
Verification of the weather-data-plotter pipeline (src/plotter.py).

The file shallowly embeds the pipeline core of the repository:
the station-name resolver (DataHandler.check_id), the per-parameter
file cleaner (DataHandler.clean_file), the join of the per-parameter
files (DataHandler.merge_files, built on pandas pd.merge), the type
coercion step (DataHandler.change_dtype), the pipeline driver (main)
and the command-line entry guard.

Tabular-library behaviour (pandas read_csv / to_csv / merge /
to_numeric / to_datetime) is modelled explicitly where the code
relies on it; each such definition documents the pandas semantics
it captures and the simplifications made.
-/

namespace Plotter

/-! Resolver (DataHandler.check_id, src/plotter.py lines 40-58).

The constructor lower-cases the query once (`station.lower()`), then
check_id first looks for an exact match of the lower-cased station
names against the query, and falls back to the first station whose
lower-cased name starts with the query.  Both stages are wrapped in
bare try/except, so a stage that finds nothing falls through instead
of raising. -/

/-- Python `str.lower`, restricted to one character and to the character
repertoire appearing in the station directory (ASCII plus the Swedish
letters Å, Ä, Ö). -/
def pyLowerChar (c : Char) : Char :=
  if c = 'Å' then 'å' else if c = 'Ä' then 'ä' else if c = 'Ö' then 'ö' else c.toLower

/-- Python `str.lower` on a whole string (character-wise). -/
def pyLower (s : String) : String :=
  String.mk (s.data.map pyLowerChar)

/-- One row of the station directory (columns `Namn` and `Id` of the
stations file read in DataHandler.__init__). -/
structure Station where
  name : String
  id : Nat
deriving DecidableEq, Repr

/-- DataHandler.check_id.  `query` is the user-provided station name
(lower-cased on entry, as in DataHandler.__init__); `dir` is the
station directory in source-table order.  `some i` models the method
assigning `self.station_id = i` and returning True; `none` models the
printed diagnostic and returning False.  `.iloc[0]` on the filtered
frame is a first-match-in-table-order selection, i.e. `List.find?`;
the IndexError it raises on an empty selection is caught by the bare
`except`, which moves to the next stage. -/
def check_id (query : String) (dir : List Station) : Option Nat :=
  let q := pyLower query
  match dir.find? (fun t => pyLower t.name == q) with
  | some t => some t.id
  | none =>
    match dir.find? (fun t => q.data.isPrefixOf (pyLower t.name).data) with
    | some t => some t.id
    | none => none

theorem pyLower_eq_empty_iff (s : String) : pyLower s = ("") ↔ s = ("") := by
  cases s with
  | mk d =>
    constructor
    · intro h
      have hm : d.map pyLowerChar = [] := congrArg String.data h
      have hd : d = [] := by simpa using hm
      rw [hd]
    · intro h
      have hd : d = [] := congrArg String.data h
      simp [pyLower, hd]

theorem pyLower_empty_data : (pyLower ("")).data = [] := by decide

theorem nil_isPrefixOf_char (l : List Char) : (([] : List Char).isPrefixOf l) = true := by
  cases l <;> rfl

/-- A concrete station directory used by the resolver witnesses. -/
def dirW : List Station :=
  [⟨"Stockholm", 98210⟩, ⟨"Abisko", 188790⟩]

/-- C2: for every station in the directory, resolving its name in any
letter-casing (any query whose lower-casing coincides with the
lower-cased name) succeeds through the exact case-insensitive stage of
check_id and yields that station's listed identifier.  The directory
is assumed to give distinct stations case-insensitively distinct
names, as the SMHI directory does; otherwise "that station's
identifier" is not well defined. -/
theorem C2_exact_case_insensitive (dir : List Station) (s : Station) (q : String)
    (hs : s ∈ dir)
    (hnodup : (dir.map (fun t => pyLower t.name)).Nodup)
    (hq : pyLower q = pyLower s.name) :
    check_id q dir = some s.id := by
  have h1 : dir.find? (fun t => pyLower t.name == pyLower q) = some s := by
    cases hfind : dir.find? (fun t => pyLower t.name == pyLower q) with
    | none =>
      have := List.find?_eq_none.mp hfind s hs
      simp [hq] at this
    | some t =>
      have hpt : (pyLower t.name == pyLower q) = true :=
        @List.find?_some Station (fun t => pyLower t.name == pyLower q) t dir hfind
      have htm : t ∈ dir := List.mem_of_find?_eq_some hfind
      have hteq : pyLower t.name = pyLower s.name := by
        rw [eq_of_beq hpt, hq]
      have hts : t = s := List.inj_on_of_nodup_map hnodup htm hs hteq
      rw [← hts]
  simp only [check_id, h1]

/-- Witness for C2 at a concrete directory and a concrete re-cased query. -/
theorem C2_witness : check_id ("STOCKHOLM") dirW = some 98210 :=
  C2_exact_case_insensitive dirW ⟨"Stockholm", 98210⟩ ("STOCKHOLM")
    (by decide) (by decide) (by decide)

/-- C3: when the query matches no station name exactly
(case-insensitively), check_id returns the identifier of the first
directory entry, in source-table order, whose lower-cased name starts
with the lower-cased query (`List.find?` is exactly that first match);
and when the query is a prefix of exactly one name, that station's id
is returned. -/
theorem C3_prefix_fallback (dir : List Station) (q : String)
    (hne : ∀ t ∈ dir, pyLower t.name ≠ pyLower q) :
    check_id q dir =
      (dir.find? (fun t => (pyLower q).data.isPrefixOf (pyLower t.name).data)).map
        (fun t => t.id)
    ∧ (∀ s ∈ dir, (pyLower q).data.isPrefixOf (pyLower s.name).data →
        (∀ t ∈ dir, (pyLower q).data.isPrefixOf (pyLower t.name).data → t = s) →
        check_id q dir = some s.id) := by
  have h0 : dir.find? (fun t => pyLower t.name == pyLower q) = none := by
    refine List.find?_eq_none.mpr (fun t ht => ?_)
    simpa using hne t ht
  constructor
  · cases hp : dir.find? (fun t => (pyLower q).data.isPrefixOf (pyLower t.name).data) with
    | none => simp only [check_id, h0, hp, Option.map_none']
    | some t => simp only [check_id, h0, hp, Option.map_some']
  · intro s hs hsp huniq
    have hp : dir.find? (fun t => (pyLower q).data.isPrefixOf (pyLower t.name).data)
        = some s := by
      cases hp : dir.find? (fun t => (pyLower q).data.isPrefixOf (pyLower t.name).data) with
      | none =>
        have := List.find?_eq_none.mp hp s hs
        exact absurd hsp this
      | some t =>
        have hpt := List.find?_some hp
        have htm := List.mem_of_find?_eq_some hp
        rw [huniq t htm hpt]
    simp only [check_id, h0, hp]

/-- Witness for C3: the query is a strict prefix of exactly one
directory name, and check_id returns that station's id. -/
theorem C3_witness : check_id ("stoc") dirW = some 98210 :=
  (C3_prefix_fallback dirW ("stoc") (by decide)).2
    ⟨"Stockholm", 98210⟩ (by decide) (by decide) (by decide)

theorem check_id_none_of_no_match (dir : List Station) (q : String)
    (hne : ∀ t ∈ dir, pyLower t.name ≠ pyLower q)
    (hnp : ∀ t ∈ dir, ¬ ((pyLower q).data.isPrefixOf (pyLower t.name).data = true)) :
    check_id q dir = none := by
  have h0 : dir.find? (fun t => pyLower t.name == pyLower q) = none := by
    refine List.find?_eq_none.mpr (fun t ht => ?_)
    simpa using hne t ht
  have h1 : dir.find? (fun t => (pyLower q).data.isPrefixOf (pyLower t.name).data)
      = none :=
    List.find?_eq_none.mpr (fun t ht => hnp t ht)
  simp only [check_id, h0, h1]

/-- C4: when neither the exact stage nor the prefix stage matches any
station, check_id reports NotFound (models the printed diagnostic and
the `return False`) for any query string and any directory contents.
The embedding is a total function, reflecting that the two bare
try/except blocks in the source leave no unhandled fault. -/
theorem C4_not_found (dir : List Station) (q : String)
    (hne : ∀ t ∈ dir, pyLower t.name ≠ pyLower q)
    (hnp : ∀ t ∈ dir, ¬ ((pyLower q).data.isPrefixOf (pyLower t.name).data = true)) :
    check_id q dir = none :=
  check_id_none_of_no_match dir q hne hnp

/-- Witness for C4 on a query absent from the concrete directory. -/
theorem C4_witness : check_id ("Nowhereville") dirW = none :=
  C4_not_found dirW ("Nowhereville") (by decide) (by decide)

/-- C10 (implicit): the empty query never reports NotFound on a
populated directory: no nonempty station name lower-cases to the empty
string, so the exact stage falls through, and since every string
starts with the empty string, the prefix fallback selects the first
entry of the table. -/
theorem C10_empty_query (d : Station) (rest : List Station)
    (hnames : ∀ t ∈ d :: rest, t.name ≠ ("")) :
    check_id ("") (d :: rest) = some d.id := by
  have h0 : (d :: rest).find? (fun t => pyLower t.name == pyLower ("")) = none := by
    refine List.find?_eq_none.mpr (fun t ht => ?_)
    have hne : pyLower t.name ≠ ("") := by
      intro h
      exact hnames t ht ((pyLower_eq_empty_iff t.name).mp h)
    simpa using hne
  have h1 : (d :: rest).find?
      (fun t => (pyLower ("")).data.isPrefixOf (pyLower t.name).data) = some d :=
    @List.find?_cons_of_pos Station
      (fun t => (pyLower ("")).data.isPrefixOf (pyLower t.name).data) d rest
      (by
        show (pyLower ("")).data.isPrefixOf (pyLower d.name).data = true
        rw [pyLower_empty_data]
        exact nil_isPrefixOf_char _)
  simp only [check_id, h0, h1]

/-- Witness for C10 at the concrete directory. -/
theorem C10_witness : check_id ("") dirW = some 98210 :=
  C10_empty_query ⟨"Stockholm", 98210⟩ [⟨"Abisko", 188790⟩] (by decide)

/-! Pipeline driver (main, src/plotter.py lines 308-337) and the
command-line entry guard (lines 339-345).

For the temporal claims the driver is embedded as the sequence of
externally visible steps it performs: each download_data call (one
HTTP GET plus one file write), each clean_file call, the merge, the
type coercion, the seven per-parameter chart calls (collapsed into one
event carrying the parameter label) and the three cross-parameter
chart calls. -/

/-- One externally visible step of a pipeline run. -/
inductive Ev where
  | download (stationId paramNum : Nat)
  | cleanStep (paramNum : Nat)
  | mergeStep
  | coerce
  | plotParam (param : String)
  | jointPlot
  | pairPlot
  | plotlyPlot
deriving DecidableEq, Repr

/-- The driver `main(station)`: resolve the station, and only when
resolution succeeds run download and clean for every configured
parameter, then merge, then coerce, then the chart calls.  When
check_id returns False, main does nothing further.  `params` is the
configured PARAMS list of (parameter code, display name) pairs. -/
def mainModel (dir : List Station) (params : List (Nat × String)) (query : String) :
    Bool × List Ev :=
  match check_id query dir with
  | none => (false, [])
  | some sid =>
    (true,
      params.flatMap (fun p => [Ev.download sid p.1, Ev.cleanStep p.1])
        ++ [Ev.mergeStep, Ev.coerce]
        ++ params.map (fun p => Ev.plotParam p.2)
        ++ [Ev.jointPlot, Ev.pairPlot, Ev.plotlyPlot])

/-- The PARAMS list of settings.py (modelled from the spec: air
temperature and relative humidity with their SMHI parameter codes). -/
def smhiParams : List (Nat × String) :=
  [(1, "Lufttemperatur"), (6, "Relativ Luftfuktighet")]

/-- C7: for a query that matches no station by either resolution
stage, the run yields the StationNotFound outcome (first component
false) and performs no step at all: the event trace is empty, so in
particular zero HTTP calls and no download, clean, merge or coercion
step. -/
theorem C7_station_not_found_zero_http (dir : List Station)
    (params : List (Nat × String)) (q : String)
    (hne : ∀ t ∈ dir, pyLower t.name ≠ pyLower q)
    (hnp : ∀ t ∈ dir, ¬ ((pyLower q).data.isPrefixOf (pyLower t.name).data = true)) :
    mainModel dir params q = (false, []) := by
  simp only [mainModel, check_id_none_of_no_match dir q hne hnp]

/-- Witness for C7: the end-to-end scenario of the spec, with the
query Nowhereville absent from the directory. -/
theorem C7_witness : mainModel dirW smhiParams ("Nowhereville") = (false, []) :=
  C7_station_not_found_zero_http dirW smhiParams ("Nowhereville")
    (by decide) (by decide)

/-- Outcome of the `if __name__ == '__main__'` guard. -/
inductive EntryOutcome where
  | exited (status : Nat) (printedDiagnostic : Bool)
  | ran (station : String)
deriving DecidableEq, Repr

/-- The entry guard: `sys.argv[1]` missing raises IndexError, caught by
the bare except, which prints the diagnostic and calls `sys.exit()`.
`sys.exit()` with no argument raises SystemExit(None), and the
interpreter maps a None code to OS exit status 0.  Otherwise main runs
on the given argument. -/
def entryPoint (argv : List String) : EntryOutcome :=
  match argv.get? 1 with
  | none => EntryOutcome.exited 0 true
  | some s => EntryOutcome.ran s

/-- C8 counterexample: invoked with the station-name argument missing,
the program prints the diagnostic but exits with status 0 — the
success status — because `sys.exit()` is called with no argument.
This refutes the claim that the exit status is a failure
(non-zero-equivalent) status. -/
theorem C8_counterexample : entryPoint [("plotter.py")] = EntryOutcome.exited 0 true := by
  decide

/-- C8 as amended: when the positional station-name argument is
missing, the program prints a diagnostic and exits immediately (main
never runs), but with exit status 0, not a non-zero failure status. -/
theorem C8_exit_after_diagnostic (argv : List String)
    (h : argv.get? 1 = none) :
    entryPoint argv = EntryOutcome.exited 0 true := by
  simp only [entryPoint, h]

/-- Witness for the amended C8 at a concrete argument vector. -/
theorem C8_witness : entryPoint [("prog")] = EntryOutcome.exited 0 true :=
  C8_exit_after_diagnostic [("prog")] rfl

/-! Table layer: the pandas DataFrames manipulated by the Normalizer.

A DataFrame is a list of column names plus one association list per
row, mapping each column name to the cell stored there; well-formed
tables (WFTable) carry the column list verbatim in every row, which is
what read_csv produces. -/

/-- One cell of a DataFrame: missing (pandas NaN), a raw string, a
numeric value as parsed from a decimal literal (sign, integer part,
fraction digits), or a calendar date. -/
inductive Cell where
  | null
  | str (s : String)
  | num (neg : Bool) (ip : Nat) (frac : List Nat)
  | date (y m d : Nat)
deriving DecidableEq, Repr

/-- A DataFrame row: column name to cell. -/
abbrev RowA := List (String × Cell)

/-- A DataFrame. -/
structure Table where
  cols : List String
  rows : List RowA
deriving DecidableEq, Repr

/-- Every row lists exactly the table's columns, in order. -/
def WFTable (t : Table) : Prop := ∀ r ∈ t.rows, r.map Prod.fst = t.cols

instance (t : Table) : Decidable (WFTable t) := by
  unfold WFTable; infer_instance

/-- pandas `pd.merge(t1, t2)` with all defaults, as called in
DataHandler.merge_files: an inner join keyed on the intersection of
the two column sets (in left order), producing, for each left row and
each right row agreeing with it on every key column, the left row
followed by the right row's non-key cells.  Left-to-right row order of
the inner join is preserved.  Note pandas joins NaN keys to NaN keys,
as does `Cell.null = Cell.null` here. -/
def pdMerge (t1 t2 : Table) : Table :=
  let ks := t1.cols.filter (fun c => decide (c ∈ t2.cols))
  { cols := t1.cols ++ t2.cols.filter (fun c => !decide (c ∈ ks)),
    rows := t1.rows.flatMap (fun r1 =>
      (t2.rows.filter (fun r2 =>
          ks.all (fun c => decide (r2.lookup c = r1.lookup c)))).map
        (fun r2 => r1 ++ r2.filter (fun p => !decide (p.1 ∈ ks)))) }

/-- DataHandler.merge_files (src/plotter.py lines 83-92): read the
per-parameter cleaned files (the file read with `index_col=0` recovers
exactly the cleaned tables, so the embedding takes the tables
directly) and fold `pd.merge` over them left to right, starting from
the first.  An empty parameter list would make `file_list[0]` raise an
uncaught IndexError, modelled by `none`. -/
def merge_files : List Table → Option Table
  | [] => none
  | t :: ts => some (ts.foldl pdMerge t)

/-- The shared {date, time} columns of the SMHI files. -/
def dtCols : List String := ["Datum", "Tid (UTC)"]

/-- The {date, time} key of a row. -/
def dtKey (r : RowA) : Option Cell × Option Cell :=
  (r.lookup ("Datum"), r.lookup ("Tid (UTC)"))

/-- The {date, time} keys of a table's rows. -/
def dtKeys (t : Table) : List (Option Cell × Option Cell) := t.rows.map dtKey

/-- The columns of a table after the two key columns. -/
def tailCols (t : Table) : List String := t.cols.drop 2

/-- First cleaned per-parameter file of the C1 counterexample: the
cleaner keeps the first four columns, so the SMHI quality-flag column
`Kvalitet` is retained next to the temperature value. -/
def tKv1 : Table :=
  { cols := ["Datum", "Tid (UTC)", "Lufttemperatur", "Kvalitet"],
    rows := [[("Datum", Cell.str ("2024-01-01")), ("Tid (UTC)", Cell.str ("06:00:00")),
              ("Lufttemperatur", Cell.str ("1.0")), ("Kvalitet", Cell.str ("G"))]] }

/-- Second cleaned per-parameter file of the C1 counterexample: same
single {date, time} key, humidity value, but a different quality flag. -/
def tKv2 : Table :=
  { cols := ["Datum", "Tid (UTC)", "Relativ Luftfuktighet", "Kvalitet"],
    rows := [[("Datum", Cell.str ("2024-01-01")), ("Tid (UTC)", Cell.str ("06:00:00")),
              ("Relativ Luftfuktighet", Cell.str ("55")), ("Kvalitet", Cell.str ("Y"))]] }

/-- C1 counterexample: two cleaned files with the same single
{date, time} key.  The intersection of the {date, time} keys is that
one key, yet the merge result has no rows at all, because `pd.merge`
with no `on=` joins on every shared column, and the shared columns
include the identically named quality-flag column `Kvalitet`, whose
values differ.  So merge_files is not keyed on exactly the shared
{date, time} columns and its row set is not the intersection of the
{date, time} keys. -/
theorem C1_counterexample :
    (merge_files [tKv1, tKv2]).map (fun t => t.rows) = some []
    ∧ dtKeys tKv1 = dtKeys tKv2 ∧ dtKeys tKv1 ≠ [] := by
  decide

theorem lookup_append_left (a : String) (l1 l2 : RowA)
    (h : a ∈ l1.map Prod.fst) : (l1 ++ l2).lookup a = l1.lookup a := by
  induction l1 with
  | nil => simp at h
  | cons p tl ih =>
    obtain ⟨k, v⟩ := p
    by_cases hak : a = k
    · simp [List.lookup, hak]
    · have h' : a ∈ tl.map Prod.fst := by simpa [hak] using h
      simp [List.lookup, hak, ih h']

theorem dtKey_append (r1 rest : RowA)
    (hD : ("Datum") ∈ r1.map Prod.fst) (hT : ("Tid (UTC)") ∈ r1.map Prod.fst) :
    dtKey (r1 ++ rest) = dtKey r1 := by
  simp [dtKey, lookup_append_left ("Datum") r1 rest hD,
    lookup_append_left ("Tid (UTC)") r1 rest hT]

theorem map_fst_filter_not_mem (ks : List String) (l : RowA) :
    (l.filter (fun p => !decide (p.1 ∈ ks))).map Prod.fst
      = (l.map Prod.fst).filter (fun c => !decide (c ∈ ks)) := by
  induction l with
  | nil => rfl
  | cons p tl ih =>
    obtain ⟨k, v⟩ := p
    by_cases h : k ∈ ks <;> simp [h, ih]

theorem pdMerge_ks (t1 t2 : Table)
    (h1 : t1.cols = dtCols ++ tailCols t1)
    (h2 : t2.cols = dtCols ++ tailCols t2)
    (hd1 : ∀ c ∈ tailCols t1, c ∉ dtCols)
    (hdisj : ∀ c ∈ tailCols t1, c ∉ tailCols t2) :
    t1.cols.filter (fun c => decide (c ∈ t2.cols)) = dtCols := by
  conv_lhs => rw [h1]
  rw [List.filter_append]
  have hB : dtCols.filter (fun c => decide (c ∈ t2.cols)) = dtCols := by
    rw [List.filter_eq_self]
    intro c hc
    simp only [decide_eq_true_eq]
    rw [h2]
    exact List.mem_append_left _ hc
  have hA : (tailCols t1).filter (fun c => decide (c ∈ t2.cols)) = [] := by
    rw [List.filter_eq_nil_iff]
    intro c hc
    simp only [decide_eq_true_eq, h2, List.mem_append]
    rintro (h | h)
    · exact hd1 c hc h
    · exact hdisj c hc h
  rw [hA, hB, List.append_nil]

theorem pdMerge_cols (t1 t2 : Table)
    (h1 : t1.cols = dtCols ++ tailCols t1)
    (h2 : t2.cols = dtCols ++ tailCols t2)
    (hd1 : ∀ c ∈ tailCols t1, c ∉ dtCols)
    (hd2 : ∀ c ∈ tailCols t2, c ∉ dtCols)
    (hdisj : ∀ c ∈ tailCols t1, c ∉ tailCols t2) :
    (pdMerge t1 t2).cols = dtCols ++ (tailCols t1 ++ tailCols t2) := by
  have hks := pdMerge_ks t1 t2 h1 h2 hd1 hdisj
  simp only [pdMerge, hks]
  conv_lhs => rw [h2]
  rw [List.filter_append]
  have hA : dtCols.filter (fun c => !decide (c ∈ dtCols)) = [] := by decide
  have hB : (tailCols t2).filter (fun c => !decide (c ∈ dtCols)) = tailCols t2 := by
    rw [List.filter_eq_self]
    intro c hc
    simpa using hd2 c hc
  rw [hA, hB, List.nil_append, h1, List.append_assoc]

theorem pdMerge_WF (t1 t2 : Table) (hw1 : WFTable t1) (hw2 : WFTable t2) :
    WFTable (pdMerge t1 t2) := by
  intro r hr
  simp only [pdMerge, List.mem_flatMap, List.mem_map] at hr
  obtain ⟨r1, hr1, r2, hr2f, rfl⟩ := hr
  have hr2 : r2 ∈ t2.rows := (List.mem_filter.mp hr2f).1
  simp only [pdMerge]
  rw [List.map_append, hw1 r1 hr1, map_fst_filter_not_mem, hw2 r2 hr2]

theorem pdMerge_dtKeys (t1 t2 : Table)
    (h1 : t1.cols = dtCols ++ tailCols t1)
    (h2 : t2.cols = dtCols ++ tailCols t2)
    (hd1 : ∀ c ∈ tailCols t1, c ∉ dtCols)
    (hdisj : ∀ c ∈ tailCols t1, c ∉ tailCols t2)
    (hw1 : WFTable t1) (hw2 : WFTable t2) :
    ∀ k, k ∈ dtKeys (pdMerge t1 t2) ↔ (k ∈ dtKeys t1 ∧ k ∈ dtKeys t2) := by
  have hks := pdMerge_ks t1 t2 h1 h2 hd1 hdisj
  intro k
  constructor
  · intro hk
    simp only [dtKeys, List.mem_map] at hk
    obtain ⟨r, hr, hkey⟩ := hk
    simp only [pdMerge, hks, List.mem_flatMap, List.mem_map] at hr
    obtain ⟨r1, hr1, r2, hr2f, rfl⟩ := hr
    have hr2 : r2 ∈ t2.rows := (List.mem_filter.mp hr2f).1
    have hpred := (List.mem_filter.mp hr2f).2
    have hfst1 : r1.map Prod.fst = t1.cols := hw1 r1 hr1
    have hD1 : ("Datum") ∈ r1.map Prod.fst := by rw [hfst1, h1]; simp [dtCols]
    have hT1 : ("Tid (UTC)") ∈ r1.map Prod.fst := by rw [hfst1, h1]; simp [dtCols]
    rw [dtKey_append r1 _ hD1 hT1] at hkey
    simp only [dtCols, List.all_cons, List.all_nil, Bool.and_eq_true,
      decide_eq_true_eq, and_true] at hpred
    have hmatch : dtKey r2 = dtKey r1 := by
      simp [dtKey, hpred.1, hpred.2]
    constructor
    · simp only [dtKeys, List.mem_map]
      exact ⟨r1, hr1, hkey⟩
    · simp only [dtKeys, List.mem_map]
      exact ⟨r2, hr2, hmatch.trans hkey⟩
  · rintro ⟨hk1, hk2⟩
    simp only [dtKeys, List.mem_map] at hk1 hk2 ⊢
    obtain ⟨r1, hr1, hkey1⟩ := hk1
    obtain ⟨r2, hr2, hkey2⟩ := hk2
    have hfst1 : r1.map Prod.fst = t1.cols := hw1 r1 hr1
    have hD1 : ("Datum") ∈ r1.map Prod.fst := by rw [hfst1, h1]; simp [dtCols]
    have hT1 : ("Tid (UTC)") ∈ r1.map Prod.fst := by rw [hfst1, h1]; simp [dtCols]
    have hkk : dtKey r2 = dtKey r1 := hkey2.trans hkey1.symm
    refine ⟨r1 ++ r2.filter (fun p => !decide (p.1 ∈ dtCols)), ?_, ?_⟩
    · simp only [pdMerge, hks, List.mem_flatMap, List.mem_map]
      refine ⟨r1, hr1, r2, List.mem_filter.mpr ⟨hr2, ?_⟩, rfl⟩
      have hDd : r2.lookup ("Datum") = r1.lookup ("Datum") := congrArg Prod.fst hkk
      have hTd : r2.lookup ("Tid (UTC)") = r1.lookup ("Tid (UTC)") :=
        congrArg Prod.snd hkk
      simp [dtCols, hDd, hTd]
    · rw [dtKey_append r1 _ hD1 hT1]
      exact hkey1

theorem foldl_pdMerge_dtKeys (ts : List Table) : ∀ acc : Table,
    acc.cols = dtCols ++ tailCols acc →
    (∀ c ∈ tailCols acc, c ∉ dtCols) →
    WFTable acc →
    (∀ t ∈ ts, t.cols = dtCols ++ tailCols t) →
    (∀ t ∈ ts, ∀ c ∈ tailCols t, c ∉ dtCols) →
    (∀ t ∈ ts, WFTable t) →
    (∀ t ∈ ts, ∀ c ∈ tailCols acc, c ∉ tailCols t) →
    List.Pairwise (fun a b => ∀ c ∈ tailCols a, c ∉ tailCols b) ts →
    ∀ k, k ∈ dtKeys (ts.foldl pdMerge acc) ↔ (k ∈ dtKeys acc ∧ ∀ t ∈ ts, k ∈ dtKeys t) := by
  induction ts with
  | nil =>
    intro acc _ _ _ _ _ _ _ _ k
    simp
  | cons t ts ih =>
    intro acc hacc hdacc hwacc hshape hdtail hw hdisj hpw k
    have h2 := hshape t (by simp)
    have hd2 := hdtail t (by simp)
    have hw2 := hw t (by simp)
    have hdisj2 := hdisj t (by simp)
    have hcols' : (pdMerge acc t).cols = dtCols ++ (tailCols acc ++ tailCols t) :=
      pdMerge_cols acc t hacc h2 hdacc hd2 hdisj2
    have htail' : tailCols (pdMerge acc t) = tailCols acc ++ tailCols t := by
      rw [tailCols, hcols']
      rfl
    have hacc' : (pdMerge acc t).cols = dtCols ++ tailCols (pdMerge acc t) := by
      rw [hcols', htail']
    have hdacc' : ∀ c ∈ tailCols (pdMerge acc t), c ∉ dtCols := by
      intro c hc
      rw [htail'] at hc
      rcases List.mem_append.mp hc with h | h
      · exact hdacc c h
      · exact hd2 c h
    have hwacc' := pdMerge_WF acc t hwacc hw2
    have hdisj' : ∀ u ∈ ts, ∀ c ∈ tailCols (pdMerge acc t), c ∉ tailCols u := by
      intro u hu c hc
      rw [htail'] at hc
      rcases List.mem_append.mp hc with h | h
      · exact hdisj u (by simp [hu]) c h
      · exact (List.pairwise_cons.mp hpw).1 u hu c h
    have hstep := pdMerge_dtKeys acc t hacc h2 hdacc hdisj2 hwacc hw2
    have hrest := ih (pdMerge acc t) hacc' hdacc' hwacc'
      (fun u hu => hshape u (by simp [hu]))
      (fun u hu => hdtail u (by simp [hu]))
      (fun u hu => hw u (by simp [hu]))
      hdisj'
      (List.pairwise_cons.mp hpw).2
      k
    rw [List.foldl_cons, hrest, hstep k]
    simp [List.forall_mem_cons, and_assoc]

theorem pdMerge_self_single (u : Table) (r : RowA) (hw : WFTable u)
    (hr : u.rows = [r]) : pdMerge u u = u := by
  have hks : u.cols.filter (fun c => decide (c ∈ u.cols)) = u.cols := by
    rw [List.filter_eq_self]
    intro c hc
    simpa using hc
  have hcols : (pdMerge u u).cols = u.cols := by
    simp only [pdMerge, hks]
    have hnil : u.cols.filter (fun c => !decide (c ∈ u.cols)) = [] := by
      rw [List.filter_eq_nil_iff]
      intro c hc
      simp [hc]
    rw [hnil, List.append_nil]
  have hfst : r.map Prod.fst = u.cols := hw r (by rw [hr]; simp)
  have hpred : u.cols.all (fun c => decide (r.lookup c = r.lookup c)) = true := by
    simp
  have hfil : r.filter (fun p => !decide (p.1 ∈ u.cols)) = [] := by
    rw [List.filter_eq_nil_iff]
    intro p hp
    have hmem : p.1 ∈ u.cols := by
      rw [← hfst]
      exact List.mem_map_of_mem Prod.fst hp
    simp [hmem]
  have hrows : (pdMerge u u).rows = [r] := by
    simp only [pdMerge, hks, hr]
    simp [hpred, hfil]
  calc pdMerge u u = ⟨(pdMerge u u).cols, (pdMerge u u).rows⟩ := rfl
    _ = ⟨u.cols, [r]⟩ := by rw [hcols, hrows]
    _ = ⟨u.cols, u.rows⟩ := by rw [hr]
    _ = u := rfl

/-- C1 as amended: merge_files folds `pd.merge` over the cleaned files
left to right, but the join is keyed on ALL columns shared between the
accumulated table and the next file, not necessarily just {date, time}
(the counterexample shows a shared quality-flag column entering the
key).  When the files share exactly the {date, time} columns — first
two columns Datum and Tid (UTC), all remaining column names pairwise
distinct across files and distinct from the key names — the
{date, time} key set of the merge result equals the intersection of
the {date, time} key sets of all input files; and merging N copies of
one single-row file yields exactly one row, not N. -/
theorem C1_amended (f : Table) (fs : List Table)
    (hshape : ∀ t ∈ f :: fs, t.cols = dtCols ++ tailCols t)
    (htail : ∀ t ∈ f :: fs, ∀ c ∈ tailCols t, c ∉ dtCols)
    (hw : ∀ t ∈ f :: fs, WFTable t)
    (hp : List.Pairwise (fun a b => ∀ c ∈ tailCols a, c ∉ tailCols b) (f :: fs)) :
    merge_files (f :: fs) = some (fs.foldl pdMerge f)
    ∧ (∀ k, k ∈ dtKeys (fs.foldl pdMerge f) ↔ ∀ t ∈ f :: fs, k ∈ dtKeys t)
    ∧ (∀ (n : Nat) (u : Table) (r : RowA), WFTable u → u.rows = [r] →
        ((List.replicate n u).foldl pdMerge u).rows = [r]) := by
  refine ⟨rfl, ?_, ?_⟩
  · intro k
    have h := foldl_pdMerge_dtKeys fs f
      (hshape f (by simp)) (htail f (by simp)) (hw f (by simp))
      (fun u hu => hshape u (by simp [hu]))
      (fun u hu => htail u (by simp [hu]))
      (fun u hu => hw u (by simp [hu]))
      (fun u hu => (List.pairwise_cons.mp hp).1 u hu)
      (List.pairwise_cons.mp hp).2
      k
    rw [h]
    simp [List.forall_mem_cons]
  · intro n u r hwu hru
    have hself : pdMerge u u = u := pdMerge_self_single u r hwu hru
    induction n with
    | zero => simpa using hru
    | succ m ihm =>
      rw [List.replicate_succ, List.foldl_cons, hself]
      exact ihm

/-- First cleaned file for the C1 witness (flag column dropped, so the
shared columns are exactly {date, time}). -/
def tA : Table :=
  { cols := ["Datum", "Tid (UTC)", "Lufttemperatur"],
    rows := [[("Datum", Cell.str ("2024-01-01")), ("Tid (UTC)", Cell.str ("06:00:00")),
              ("Lufttemperatur", Cell.str ("1.0"))]] }

/-- Second cleaned file for the C1 witness. -/
def tB : Table :=
  { cols := ["Datum", "Tid (UTC)", "Relativ Luftfuktighet"],
    rows := [[("Datum", Cell.str ("2024-01-01")), ("Tid (UTC)", Cell.str ("06:00:00")),
              ("Relativ Luftfuktighet", Cell.str ("55"))]] }

/-- Witness for the amended C1: a key present in every input file is a
key of the merge result. -/
theorem C1_witness :
    (some (Cell.str ("2024-01-01")), some (Cell.str ("06:00:00")))
      ∈ dtKeys ([tB].foldl pdMerge tA) :=
  ((C1_amended tA [tB] (by decide) (by decide) (by decide) (by decide)).2.1 _).mpr
    (by decide)

/-! File layer: the CSV text read and written by DataHandler.clean_file.

A file is a list of lines, a line a list of characters.  The field
splitting and joining of the pandas CSV machinery is modelled
explicitly, because clean_file's behaviour (and the idempotence claim)
hinges on the separators involved: it reads with `sep=';'` but writes
with the default comma. -/

/-- A line of a CSV file. -/
abbrev Line := List Char

/-- Field splitting of a line at a separator character (the pandas CSV
tokenizer; quoting is not modelled, as no quoted field occurs in the
data handled here). -/
def splitCells (sep : Char) : Line → List Line
  | [] => [[]]
  | c :: cs =>
    match splitCells sep cs with
    | [] => [[c]]
    | r :: rs => if c = sep then [] :: r :: rs else (c :: r) :: rs

/-- Joining fields with a separator (pandas to_csv; fields are assumed
free of the separator and of quotes, as all data handled here is). -/
def joinCells (sep : Char) : List Line → Line
  | [] => []
  | [p] => p
  | p :: ps => p ++ sep :: joinCells sep ps

/-- The character of a decimal digit. -/
def digitChar (n : Nat) : Char := Char.ofNat (48 + n)

def natCharsAux : Nat → Nat → List Char
  | 0, _ => []
  | fuel + 1, n =>
    if n < 10 then [digitChar n]
    else natCharsAux fuel (n / 10) ++ [digitChar (n % 10)]

/-- Decimal rendering of a row index, as pandas to_csv writes the
unnamed integer index. -/
def natChars (n : Nat) : List Char := natCharsAux (n + 1) n

/-- A cell parsed from CSV text: the empty field is NaN. -/
def mkCell (cs : Line) : Cell :=
  if cs = [] then Cell.null else Cell.str (String.mk cs)

/-- The text written for a cell by to_csv (NaN becomes the empty
field).  Numeric and date cells do not occur in the cleaning step;
their rendering is only needed for totality. -/
def cellChars : Cell → Line
  | Cell.null => []
  | Cell.str s => s.data
  | Cell.num neg ip frac =>
    (if neg then ['-'] else []) ++ natChars ip
      ++ (if frac = [] then [] else '.' :: frac.map digitChar)
  | Cell.date y m d => natChars y ++ '-' :: natChars m ++ '-' :: natChars d

/-- One data row as read by pandas with `usecols=[0,1,2,3]`: the first
four fields, short rows padded with NaN. -/
def readRow (cols : List String) (l : Line) : RowA :=
  let cs := (splitCells (';') l).take 4
  cols.zip ((cs ++ List.replicate (4 - cs.length) []).map mkCell)

/-- pandas `pd.read_csv(file, header=hdr, sep=';', usecols=[0,1,2,3])`
as called in DataHandler.clean_file.  Blank lines are skipped
(skip_blank_lines=True); the remaining line at index `hdr` is the
header, later lines are data.  `none` models the exceptions pandas
raises: a header index beyond the end of the file, or `usecols`
referring to columns the header does not have (fewer than four header
fields — in particular a file whose lines contain no semicolon at
all). -/
def read_csv (hdr : Nat) (file : List Line) : Option Table :=
  let ls := file.filter (fun l => !decide (l = []))
  match ls.get? hdr with
  | none => none
  | some hl =>
    if (splitCells (';') hl).length < 4 then none
    else
      let cols := ((splitCells (';') hl).take 4).map String.mk
      some { cols := cols, rows := (ls.drop (hdr + 1)).map (readRow cols) }

/-- pandas `df.to_csv(path)` with all defaults, as in
DataHandler.clean_file: comma separator and index=True, i.e. a header
line with an empty first field for the unnamed index, then one line
per row led by the running row index. -/
def to_csv_indexed (t : Table) : List Line :=
  joinCells (',') ([] :: t.cols.map String.data) ::
    t.rows.enum.map (fun p =>
      joinCells (',') (natChars p.1 :: p.2.map (fun q => cellChars q.2)))

/-- DataHandler.clean_file (src/plotter.py lines 73-81): read the raw
file with a 7-line header offset keeping the first four columns; if
the first retained column is not labelled Datum, re-read with a 6-line
offset; write the result back over the same file with pandas to_csv
(comma-separated, with the index column).  `none` models an uncaught
pandas exception, which crashes the run. -/
def clean_file (file : List Line) : Option (List Line) :=
  match read_csv 7 file with
  | none => none
  | some df0 =>
    match (if df0.cols.head? = some ("Datum") then some df0 else read_csv 6 file) with
    | none => none
    | some df => some (to_csv_indexed df)

theorem read_csv_cols_length (hdr : Nat) (file : List Line) (t : Table)
    (h : read_csv hdr file = some t) : t.cols.length = 4 := by
  cases hg : (file.filter (fun l => !decide (l = []))).get? hdr with
  | none => simp only [read_csv, hg] at h; exact Option.noConfusion h
  | some hl =>
    simp only [read_csv, hg] at h
    by_cases h4 : (splitCells (';') hl).length < 4
    · simp only [if_pos h4] at h; exact Option.noConfusion h
    · simp only [if_neg h4, Option.some.injEq] at h
      rw [← h]
      show (((splitCells (';') hl).take 4).map String.mk).length = 4
      simp only [List.length_map, List.length_take]
      exact Nat.min_eq_left (Nat.le_of_not_lt h4)

theorem readRow_fst (cols : List String) (l : Line) (h4 : cols.length = 4) :
    (readRow cols l).map Prod.fst = cols := by
  simp only [readRow]
  rw [List.map_fst_zip]
  have hle : ((splitCells (';') l).take 4).length ≤ 4 := by
    simp only [List.length_take]
    exact Nat.min_le_left _ _
  simp only [List.length_map, List.length_append, List.length_replicate, h4]
  omega

theorem read_csv_WF (hdr : Nat) (file : List Line) (t : Table)
    (h : read_csv hdr file = some t) : WFTable t := by
  have hlen := read_csv_cols_length hdr file t h
  cases hg : (file.filter (fun l => !decide (l = []))).get? hdr with
  | none => simp only [read_csv, hg] at h; exact Option.noConfusion h
  | some hl =>
    simp only [read_csv, hg] at h
    by_cases h4 : (splitCells (';') hl).length < 4
    · simp only [if_pos h4] at h; exact Option.noConfusion h
    · simp only [if_neg h4, Option.some.injEq] at h
      intro r hr
      rw [← h] at hr
      obtain ⟨l, _, rfl⟩ := List.mem_map.mp hr
      rw [readRow_fst _ _ (by rw [← h] at hlen; exact hlen)]
      rw [← h]

/-- C9: clean_file retains only the first four columns of the raw
file, detects whether the header occupies 7 or 6 leading lines by
first reading at offset 7 and checking whether the first retained
column header is Datum, re-reading at offset 6 if it is not, and
overwrites the raw file with the resulting table, whose shape is
exactly the four retained {date, time, value, flag} columns (four
columns, each row carrying exactly those columns). -/
theorem C9_clean_header_detection (file : List Line) (t7 : Table)
    (h7 : read_csv 7 file = some t7) :
    (t7.cols.head? = some ("Datum") → clean_file file = some (to_csv_indexed t7))
    ∧ (t7.cols.head? ≠ some ("Datum") →
        clean_file file = (read_csv 6 file).map to_csv_indexed)
    ∧ t7.cols.length = 4 ∧ WFTable t7
    ∧ (∀ t6, read_csv 6 file = some t6 → t6.cols.length = 4 ∧ WFTable t6) := by
  refine ⟨?_, ?_, read_csv_cols_length 7 file t7 h7, read_csv_WF 7 file t7 h7, ?_⟩
  · intro hhead
    simp only [clean_file, h7, if_pos hhead]
  · intro hhead
    simp only [clean_file, h7, if_neg hhead]
    cases h6 : read_csv 6 file with
    | none => simp
    | some t6 => simp
  · intro t6 h6
    exact ⟨read_csv_cols_length 6 file t6 h6, read_csv_WF 6 file t6 h6⟩

/-- A concrete raw SMHI download: six preamble lines, one extra line,
then the header at line index 7 and seven observation rows. -/
def rawEx : List Line :=
  [("Stationsnamn;Stationsnummer").data,
   ("Stockholm;98210").data,
   ("Parameternamn;Enhet").data,
   ("Lufttemperatur;celsius").data,
   ("Tidsperiod;fyra senaste manaderna").data,
   ("2024-01-01;2024-04-30").data,
   ("extra rad").data,
   ("Datum;Tid (UTC);Lufttemperatur;Kvalitet").data,
   ("2024-01-01;00:00:00;0.5;G").data,
   ("2024-01-01;03:00:00;0.9;G").data,
   ("2024-01-01;06:00:00;1.0;G").data,
   ("2024-01-01;09:00:00;1.6;G").data,
   ("2024-01-01;12:00:00;2.5;G").data,
   ("2024-01-01;15:00:00;2.1;G").data,
   ("2024-01-01;18:00:00;1.3;G").data]

/-- One observation row of the cleaned concrete file. -/
def mkObs (d t v q : String) : RowA :=
  [("Datum", Cell.str d), ("Tid (UTC)", Cell.str t),
   ("Lufttemperatur", Cell.str v), ("Kvalitet", Cell.str q)]

/-- The table clean_file extracts from rawEx. -/
def tRawEx : Table :=
  { cols := ["Datum", "Tid (UTC)", "Lufttemperatur", "Kvalitet"],
    rows := [mkObs ("2024-01-01") ("00:00:00") ("0.5") ("G"),
             mkObs ("2024-01-01") ("03:00:00") ("0.9") ("G"),
             mkObs ("2024-01-01") ("06:00:00") ("1.0") ("G"),
             mkObs ("2024-01-01") ("09:00:00") ("1.6") ("G"),
             mkObs ("2024-01-01") ("12:00:00") ("2.5") ("G"),
             mkObs ("2024-01-01") ("15:00:00") ("2.1") ("G"),
             mkObs ("2024-01-01") ("18:00:00") ("1.3") ("G")] }

/-- Witness for C9: on the concrete raw file the header is found at
offset 7 and the cleaned output is written back. -/
theorem C9_witness : clean_file rawEx = some (to_csv_indexed tRawEx) :=
  (C9_clean_header_detection rawEx tRawEx (by decide)).1 (by decide)

/-- C5 counterexample: cleaning the concrete raw file succeeds, but
running the cleaner a second time on the already-cleaned file does not
yield the same table — it raises (none): the cleaned file is
comma-separated with an index column, so the second semicolon-based
read finds a single field per line and `usecols=[0,1,2,3]` fails. -/
theorem C5_counterexample :
    clean_file rawEx = some (to_csv_indexed tRawEx)
    ∧ clean_file (to_csv_indexed tRawEx) = none := by
  decide

theorem semicolon_ne_digitChar (m : Nat) (hm : m < 10) : digitChar m ≠ (';') := by
  interval_cases m <;> decide

theorem semicolon_not_mem_natCharsAux (fuel : Nat) :
    ∀ n, (';') ∉ natCharsAux fuel n := by
  induction fuel with
  | zero => intro n; simp [natCharsAux]
  | succ f ih =>
    intro n hc
    simp only [natCharsAux] at hc
    by_cases h : n < 10
    · rw [if_pos h] at hc
      simp only [List.mem_singleton] at hc
      exact semicolon_ne_digitChar n h hc.symm
    · rw [if_neg h] at hc
      rcases List.mem_append.mp hc with hc | hc
      · exact ih _ hc
      · simp only [List.mem_singleton] at hc
        exact semicolon_ne_digitChar (n % 10) (Nat.mod_lt n (by norm_num)) hc.symm

theorem semicolon_not_mem_natChars (n : Nat) : (';') ∉ natChars n :=
  semicolon_not_mem_natCharsAux (n + 1) n

theorem not_mem_joinCells (c sep : Char) (ps : List Line)
    (hcs : c ≠ sep) (hp : ∀ p ∈ ps, c ∉ p) : c ∉ joinCells sep ps := by
  induction ps with
  | nil => simp [joinCells]
  | cons p ps ih =>
    cases ps with
    | nil => simpa [joinCells] using hp p (by simp)
    | cons q ps' =>
      intro hc
      simp only [joinCells] at hc
      rcases List.mem_append.mp hc with hc | hc
      · exact hp p (by simp) hc
      · rcases List.mem_cons.mp hc with hc | hc
        · exact hcs hc
        · exact ih (fun r hr => hp r (by simp [hr])) hc

theorem splitCells_of_not_mem (sep : Char) (l : Line) (h : sep ∉ l) :
    splitCells sep l = [l] := by
  induction l with
  | nil => rfl
  | cons c cs ih =>
    have hcs : sep ∉ cs := fun hx => h (by simp [hx])
    have hcne : c ≠ sep := fun hx => h (by simp [hx])
    simp only [splitCells, ih hcs]
    rw [if_neg hcne]

theorem snd_mem_of_enumFrom {α : Type} (n : Nat) (l : List α) (p : Nat × α)
    (h : p ∈ List.enumFrom n l) : p.2 ∈ l := by
  induction l generalizing n with
  | nil => simp [List.enumFrom] at h
  | cons a tl ih =>
    simp only [List.enumFrom, List.mem_cons] at h
    rcases h with h | h
    · rw [h]
      simp
    · exact List.mem_cons_of_mem a (ih (n + 1) h)

theorem to_csv_no_semicolon (t : Table)
    (hc : ∀ c ∈ t.cols, (';') ∉ c.data)
    (hcell : ∀ r ∈ t.rows, ∀ p ∈ r, (';') ∉ cellChars p.2) :
    ∀ l ∈ to_csv_indexed t, (';') ∉ l := by
  intro l hl
  simp only [to_csv_indexed, List.mem_cons] at hl
  rcases hl with rfl | hl
  · refine not_mem_joinCells _ _ _ (by decide) ?_
    intro p hp
    rcases List.mem_cons.mp hp with rfl | hp
    · simp
    · obtain ⟨c, hcm, rfl⟩ := List.mem_map.mp hp
      exact hc c hcm
  · obtain ⟨p, hp, rfl⟩ := List.mem_map.mp hl
    have hrow : p.2 ∈ t.rows := by
      unfold List.enum at hp
      exact snd_mem_of_enumFrom 0 t.rows p hp
    refine not_mem_joinCells _ _ _ (by decide) ?_
    intro piece hpiece
    rcases List.mem_cons.mp hpiece with rfl | hpiece
    · exact semicolon_not_mem_natChars p.1
    · obtain ⟨q, hq, rfl⟩ := List.mem_map.mp hpiece
      exact hcell p.2 hrow q hq

theorem read_csv_none_of_no_semicolon (hdr : Nat) (file : List Line)
    (h : ∀ l ∈ file, (';') ∉ l) : read_csv hdr file = none := by
  cases hg : (file.filter (fun l => !decide (l = []))).get? hdr with
  | none => simp only [read_csv, hg]
  | some hl =>
    have hmem : hl ∈ file := List.mem_of_mem_filter (List.get?_mem hg)
    have hsplit : splitCells (';') hl = [hl] := splitCells_of_not_mem _ _ (h hl hmem)
    simp only [read_csv, hg, hsplit]
    simp

/-- C5 as amended: clean_file is not idempotent.  A first run writes a
comma-separated file with a leading index column; a second run on any
such output (any table whose column names and cell texts are free of
semicolons, as all SMHI data is) fails — the semicolon-based re-read
finds a single field per line, so `usecols=[0,1,2,3]` raises — instead
of reproducing the cleaned {date, time, value, flag} table. -/
theorem C5_second_clean_fails (t : Table)
    (hc : ∀ c ∈ t.cols, (';') ∉ c.data)
    (hcell : ∀ r ∈ t.rows, ∀ p ∈ r, (';') ∉ cellChars p.2) :
    clean_file (to_csv_indexed t) = none := by
  have h := to_csv_no_semicolon t hc hcell
  simp only [clean_file, read_csv_none_of_no_semicolon 7 (to_csv_indexed t) h]

/-- Witness for the amended C5 at the concrete cleaned file. -/
theorem C5_witness : clean_file (to_csv_indexed tRawEx) = none :=
  C5_second_clean_fails tRawEx (by decide) (by decide)

/-! Type coercion (DataHandler.change_dtype, src/plotter.py 94-104). -/

/-- Value of a decimal digit character, if it is one. -/
def digitVal (c : Char) : Option Nat :=
  if ('0' ≤ c ∧ c ≤ '9') then some (c.toNat - ('0').toNat) else none

def digitsValAux (acc : Nat) : List Char → Option Nat
  | [] => some acc
  | c :: cs =>
    match digitVal c with
    | none => none
    | some d => digitsValAux (acc * 10 + d) cs

/-- Value of a nonempty all-digit character list. -/
def digitsVal (cs : List Char) : Option Nat :=
  if cs = [] then none else digitsValAux 0 cs

/-- Whether all characters are decimal digits. -/
def digitsOk (cs : List Char) : Bool := cs.all (fun c => (digitVal c).isSome)

/-- pandas `pd.to_numeric` on one string cell, restricted to the plain
decimal grammar of the SMHI data: optional sign, digits with at most
one decimal point, at least one digit.  `none` models the ValueError
raised for anything else (the `errors` argument defaults to raise). -/
def parseNum (s : String) : Option Cell :=
  let p : Bool × List Char :=
    match s.data with
    | '-' :: rest => (true, rest)
    | '+' :: rest => (false, rest)
    | cs => (false, cs)
  match splitCells ('.') p.2 with
  | [ip] =>
    if ip ≠ [] ∧ digitsOk ip then
      some (Cell.num p.1 ((digitsValAux 0 ip).getD 0) [])
    else none
  | [ip, fp] =>
    if (ip ≠ [] ∨ fp ≠ []) ∧ digitsOk ip ∧ digitsOk fp then
      some (Cell.num p.1 ((digitsValAux 0 ip).getD 0)
        (fp.map (fun c => (digitVal c).getD 0)))
    else none
  | _ => none

/-- pandas `pd.to_datetime` on one string cell, restricted to the ISO
`YYYY-MM-DD` dates of the SMHI data; month and day bounds are checked,
day-in-month subtleties are not modelled.  `none` models the raised
ValueError. -/
def parseDate (s : String) : Option Cell :=
  match splitCells ('-') s.data with
  | [ys, ms, ds] =>
    match digitsVal ys, digitsVal ms, digitsVal ds with
    | some y, some m, some d =>
      if 1 ≤ m ∧ m ≤ 12 ∧ 1 ≤ d ∧ d ≤ 31 then some (Cell.date y m d) else none
    | _, _, _ => none
  | _ => none

/-- One cell under change_dtype: the date column goes through
to_datetime, the parameter columns through to_numeric; NaN passes
through both without error (to_datetime(NaN) is NaT, to_numeric(NaN)
is NaN), other columns are untouched, and already-typed cells pass
through unchanged as they do in pandas. -/
def coerceCell (index0 : String) (params : List String) (c : String) (v : Cell) :
    Option Cell :=
  if c = index0 then
    match v with
    | Cell.null => some Cell.null
    | Cell.str s => parseDate s
    | w => some w
  else if c ∈ params then
    match v with
    | Cell.null => some Cell.null
    | Cell.str s => parseNum s
    | w => some w
  else some v

def coerceRow (index0 : String) (params : List String) : RowA → Option RowA
  | [] => some []
  | (c, v) :: rest =>
    match coerceCell index0 params c v, coerceRow index0 params rest with
    | some w, some rest' => some ((c, w) :: rest')
    | _, _ => none

def coerceRows (index0 : String) (params : List String) : List RowA → Option (List RowA)
  | [] => some []
  | r :: rs =>
    match coerceRow index0 params r, coerceRows index0 params rs with
    | some r', some rs' => some (r' :: rs')
    | _, _ => none

/-- DataHandler.change_dtype (src/plotter.py lines 94-104): convert
the date column of the merged file with pd.to_datetime and every
parameter display-name column with pd.to_numeric, writing the result
back.  `none` models a raised and uncaught conversion error (or the
KeyError for an absent column), which terminates the run.  `index0` is
INDEX[0] and `params` are the display names of PARAMS from the
configuration. -/
def change_dtype (index0 : String) (params : List String) (t : Table) : Option Table :=
  if index0 ∈ t.cols ∧ ∀ p ∈ params, p ∈ t.cols then
    (coerceRows index0 params t.rows).map (fun rs => { cols := t.cols, rows := rs })
  else none

/-- A cell as read from CSV text: a string or NaN. -/
def rawCell : Cell → Bool
  | Cell.str _ => true
  | Cell.null => true
  | _ => false

/-- A cell of calendar-date type (NaT counts, as pandas NaT lives in a
datetime column). -/
def isDateLike : Cell → Bool
  | Cell.date _ _ _ => true
  | Cell.null => true
  | _ => false

/-- A cell of numeric type (NaN counts, as pandas NaN is a float). -/
def isNumLike : Cell → Bool
  | Cell.num _ _ _ => true
  | Cell.null => true
  | _ => false

theorem parseNum_shape (s : String) (w : Cell) (h : parseNum s = some w) :
    ∃ b n f, w = Cell.num b n f := by
  simp only [parseNum] at h
  repeat' split at h
  all_goals first
    | exact ⟨_, _, _, (Option.some.inj h).symm⟩
    | exact Option.noConfusion h

theorem parseDate_shape (s : String) (w : Cell) (h : parseDate s = some w) :
    ∃ y m d, w = Cell.date y m d := by
  simp only [parseDate] at h
  repeat' split at h
  all_goals first
    | exact ⟨_, _, _, (Option.some.inj h).symm⟩
    | exact Option.noConfusion h

theorem coerceCell_sound (i : String) (ps : List String) (c : String) (v w : Cell)
    (hip : i ∉ ps) (hraw : rawCell v = true)
    (h : coerceCell i ps c v = some w) :
    (c = i → isDateLike w = true) ∧ (c ∈ ps → isNumLike w = true) := by
  by_cases hci : c = i
  · refine ⟨fun _ => ?_, fun hmem => absurd (hci ▸ hmem) hip⟩
    cases v with
    | null =>
      simp only [coerceCell, if_pos hci, Option.some.injEq] at h
      rw [← h]
      rfl
    | str s =>
      simp only [coerceCell, if_pos hci] at h
      obtain ⟨y, m, d, rfl⟩ := parseDate_shape s w h
      rfl
    | num b n f => simp [rawCell] at hraw
    | date y m d => simp [rawCell] at hraw
  · by_cases hcp : c ∈ ps
    · refine ⟨fun hc => absurd hc hci, fun _ => ?_⟩
      cases v with
      | null =>
        simp only [coerceCell, if_neg hci, if_pos hcp, Option.some.injEq] at h
        rw [← h]
        rfl
      | str s =>
        simp only [coerceCell, if_neg hci, if_pos hcp] at h
        obtain ⟨b, n, f, rfl⟩ := parseNum_shape s w h
        rfl
      | num b n f => simp [rawCell] at hraw
      | date y m d => simp [rawCell] at hraw
    · exact ⟨fun hc => absurd hc hci, fun hm => absurd hm hcp⟩

theorem coerceCell_none_bad (i : String) (ps : List String) (c : String) (s : String)
    (hci : c ≠ i) (hcp : c ∈ ps) (hbad : parseNum s = none) :
    coerceCell i ps c (Cell.str s) = none := by
  simp only [coerceCell, if_neg hci, if_pos hcp]
  exact hbad

theorem coerceRow_fst (i : String) (ps : List String) (r r' : RowA)
    (h : coerceRow i ps r = some r') : r'.map Prod.fst = r.map Prod.fst := by
  induction r generalizing r' with
  | nil =>
    simp only [coerceRow, Option.some.injEq] at h
    rw [← h]
  | cons q rest ih =>
    obtain ⟨c, v⟩ := q
    cases hc : coerceCell i ps c v with
    | none => simp [coerceRow, hc] at h
    | some w =>
      cases hrest : coerceRow i ps rest with
      | none => simp [coerceRow, hc, hrest] at h
      | some rest' =>
        simp only [coerceRow, hc, hrest, Option.some.injEq] at h
        rw [← h]
        simp [ih rest' hrest]

theorem coerceRow_mem (i : String) (ps : List String) (r r' : RowA)
    (h : coerceRow i ps r = some r') :
    ∀ p ∈ r', ∃ q ∈ r, q.1 = p.1 ∧ coerceCell i ps q.1 q.2 = some p.2 := by
  induction r generalizing r' with
  | nil =>
    simp only [coerceRow, Option.some.injEq] at h
    rw [← h]
    intro p hp
    simp at hp
  | cons q0 rest ih =>
    obtain ⟨c, v⟩ := q0
    cases hc : coerceCell i ps c v with
    | none => simp [coerceRow, hc] at h
    | some w =>
      cases hrest : coerceRow i ps rest with
      | none => simp [coerceRow, hc, hrest] at h
      | some rest' =>
        simp only [coerceRow, hc, hrest, Option.some.injEq] at h
        rw [← h]
        intro p hp
        rcases List.mem_cons.mp hp with rfl | hp
        · exact ⟨(c, v), by simp, rfl, hc⟩
        · obtain ⟨q, hq, hq1, hq2⟩ := ih rest' hrest p hp
          exact ⟨q, List.mem_cons_of_mem _ hq, hq1, hq2⟩

theorem coerceRow_none (i : String) (ps : List String) (r : RowA) (p : String × Cell)
    (hp : p ∈ r) (hnone : coerceCell i ps p.1 p.2 = none) :
    coerceRow i ps r = none := by
  induction r with
  | nil => simp at hp
  | cons q rest ih =>
    obtain ⟨c, v⟩ := q
    rcases List.mem_cons.mp hp with rfl | hp'
    · have hn : coerceCell i ps c v = none := hnone
      simp [coerceRow, hn]
    · cases hc : coerceCell i ps c v <;> simp [coerceRow, hc, ih hp']

theorem coerceRows_mem (i : String) (ps : List String) (rows rows' : List RowA)
    (h : coerceRows i ps rows = some rows') :
    ∀ r' ∈ rows', ∃ r ∈ rows, coerceRow i ps r = some r' := by
  induction rows generalizing rows' with
  | nil =>
    simp only [coerceRows, Option.some.injEq] at h
    rw [← h]
    intro r' hr'
    simp at hr'
  | cons r rest ih =>
    cases hr : coerceRow i ps r with
    | none => simp [coerceRows, hr] at h
    | some r0 =>
      cases hrest : coerceRows i ps rest with
      | none => simp [coerceRows, hr, hrest] at h
      | some rest' =>
        simp only [coerceRows, hr, hrest, Option.some.injEq] at h
        rw [← h]
        intro r' hr'
        rcases List.mem_cons.mp hr' with rfl | hr'
        · exact ⟨r, by simp, hr⟩
        · obtain ⟨rr, hm, hcr⟩ := ih rest' hrest r' hr'
          exact ⟨rr, List.mem_cons_of_mem _ hm, hcr⟩

theorem coerceRows_none (i : String) (ps : List String) (rows : List RowA) (r : RowA)
    (hr : r ∈ rows) (hnone : coerceRow i ps r = none) :
    coerceRows i ps rows = none := by
  induction rows with
  | nil => simp at hr
  | cons r0 rest ih =>
    rcases List.mem_cons.mp hr with rfl | hr'
    · simp [coerceRows, hnone]
    · cases hc : coerceRow i ps r0 <;> simp [coerceRows, hc, ih hr']

/-- C6: change_dtype parses the date column of the merged file to the
calendar-date type and every parameter column to numeric (NaN cells
pass through as NaT/NaN), and whenever some parameter cell holds a
string that cannot be parsed as numeric, the whole operation
propagates the fatal parse error (returns none, terminating the run)
and never produces a table with that cell silently nulled.  The index
column is assumed not to be listed among the parameters, as in the
configuration, and the merged table holds raw (string or NaN) cells,
as files read from CSV do. -/
theorem C6_change_dtype (index0 : String) (params : List String) (t : Table)
    (hip : index0 ∉ params)
    (hraw : ∀ r ∈ t.rows, ∀ p ∈ r, rawCell p.2 = true) :
    (∀ r ∈ t.rows, ∀ p ∈ r, ∀ s, p.1 ∈ params → p.2 = Cell.str s → parseNum s = none →
        change_dtype index0 params t = none)
    ∧ (∀ t', change_dtype index0 params t = some t' →
        t'.cols = t.cols ∧ (WFTable t → WFTable t')
        ∧ ∀ r' ∈ t'.rows, ∀ p ∈ r',
            (p.1 = index0 → isDateLike p.2 = true)
            ∧ (p.1 ∈ params → isNumLike p.2 = true)) := by
  constructor
  · intro r hr p hp s hps hstr hbad
    by_cases hguard : index0 ∈ t.cols ∧ ∀ q ∈ params, q ∈ t.cols
    · have hci : p.1 ≠ index0 := fun hx => hip (hx ▸ hps)
      have hcn : coerceCell index0 params p.1 p.2 = none := by
        rw [hstr]
        exact coerceCell_none_bad index0 params p.1 s hci hps hbad
      have hrow := coerceRow_none index0 params r p hp hcn
      have hrows : coerceRows index0 params t.rows = none :=
        coerceRows_none index0 params t.rows r hr hrow
      simp [change_dtype, hguard, hrows]
    · simp [change_dtype, hguard]
  · intro t' h
    by_cases hguard : index0 ∈ t.cols ∧ ∀ q ∈ params, q ∈ t.cols
    · simp only [change_dtype, if_pos hguard] at h
      cases hrows : coerceRows index0 params t.rows with
      | none =>
        rw [hrows] at h
        simp at h
      | some rs =>
        rw [hrows] at h
        simp only [Option.map_some', Option.some.injEq] at h
        subst h
        refine ⟨rfl, ?_, ?_⟩
        · intro hwt r' hr'
          obtain ⟨r, hrm, hcr⟩ := coerceRows_mem index0 params t.rows rs hrows r' hr'
          show r'.map Prod.fst = t.cols
          rw [coerceRow_fst index0 params r r' hcr]
          exact hwt r hrm
        · intro r' hr' p hp'
          obtain ⟨r, hrm, hcr⟩ := coerceRows_mem index0 params t.rows rs hrows r' hr'
          obtain ⟨q, hq, hq1, hq2⟩ := coerceRow_mem index0 params r r' hcr p hp'
          have hs := coerceCell_sound index0 params q.1 q.2 p.2 hip
            (hraw r hrm q hq) hq2
          rw [hq1] at hs
          exact hs
    · simp [change_dtype, hguard] at h

/-- The display names of the configured PARAMS (modelled from the
spec: temperature and humidity). -/
def cfgParams : List String := ["Lufttemperatur", "Relativ Luftfuktighet"]

/-- A merged row whose temperature cell is not numeric. -/
def rowBad : RowA :=
  [("Datum", Cell.str ("2024-01-01")), ("Tid (UTC)", Cell.str ("06:00:00")),
   ("Lufttemperatur", Cell.str ("n/a")), ("Relativ Luftfuktighet", Cell.str ("55"))]

/-- A merged per-station table containing the bad row. -/
def tBad : Table :=
  { cols := ["Datum", "Tid (UTC)", "Lufttemperatur", "Relativ Luftfuktighet"],
    rows := [rowBad] }

/-- Witness for C6: a non-numeric placeholder in a parameter column
makes change_dtype fail loudly instead of producing a table. -/
theorem C6_witness : change_dtype ("Datum") cfgParams tBad = none :=
  (C6_change_dtype ("Datum") cfgParams tBad (by decide) (by decide)).1
    rowBad (by decide) (("Lufttemperatur"), Cell.str ("n/a")) (by decide)
    ("n/a") (by decide) rfl (by decide)

end Plotter
